import Mathlib

/-!
Verification development for the typyPRISM core (src/typyPRISM/core/System.py and
src/typyPRISM/core/PRISM.py).  The two Python source files are embedded shallowly:
floating-point arrays become functions into ℚ, numpy arrays of rank×rank matrices over
the radial grid become `MatrixArray`, and Python exceptions become an `Except PyErr`
result.  Collaborator modules that are not part of the source tree (MatrixArray.py,
Domain.py, the table classes and the closure classes) are modelled from the
specification; each such definition is marked `Modelled from the spec:` in its
doc comment.
-/

/-- Python exception kinds that the embedded code can raise. -/
inductive PyErr where
  | valueError
  | typeError
  | notImplementedError
  | linAlgError
  | attributeError
deriving DecidableEq, Repr

/-- Space tag of a MatrixArray: real-space or Fourier-space, mirroring
typyPRISM.core.Space (an enum with members Real and Fourier). -/
inductive Space where
  | Real
  | Fourier
deriving DecidableEq, Repr

/-- A length-N curve of scalars: one value per radial grid point. -/
def Curve (N : ℕ) : Type := Fin N → ℚ

/-- Modelled from the spec: MatrixArray (typyPRISM.core.MatrixArray, not in src/) is a
dense array of rank×rank matrices over `length` grid points carrying a `space` tag. -/
structure MatrixArray (N R : ℕ) where
  space : Space
  data : Fin N → Matrix (Fin R) (Fin R) ℚ

/-- Modelled from the spec: elementwise subtraction of two MatrixArrays; both operands
are required to share a space (a contract precondition upstream) and the result
inherits the space of the left operand. -/
def MatrixArray.sub (a b : MatrixArray N R) : MatrixArray N R :=
  { space := a.space, data := fun n => a.data n - b.data n }

/-- Modelled from the spec: per-grid-point matrix product of two MatrixArrays (the
`@` operator of MatrixArray.py); operands must share a space and the result
inherits it. -/
def MatrixArray.matmul (a b : MatrixArray N R) : MatrixArray N R :=
  { space := a.space, data := fun n => a.data n * b.data n }

/-- Modelled from the spec: scale-by-matrix division — every grid point's matrix is
divided entrywise by one fixed R×R matrix (numpy broadcasting of `/=` with an
R×R array). -/
def MatrixArray.divByMatrix (a : MatrixArray N R) (M : Matrix (Fin R) (Fin R) ℚ) :
    MatrixArray N R :=
  { space := a.space, data := fun n => Matrix.of fun i j => a.data n i j / M i j }

/-- Per-point matrix inverse, written through the determinant and the adjugate.
Modelled from the spec: numpy.linalg.inv computes the true inverse of each
nonsingular matrix. -/
def matInv (A : Matrix (Fin R) (Fin R) ℚ) : Matrix (Fin R) (Fin R) ℚ :=
  (A.det)⁻¹ • A.adjugate

/-- The MatrixArray whose every point's matrix has been replaced by `matInv` of it. -/
def MatrixArray.invData (a : MatrixArray N R) : MatrixArray N R :=
  { space := a.space, data := fun n => matInv (a.data n) }

/-- Modelled from the spec: MatrixArray.invert replaces every grid point's matrix by
its inverse and signals a numerical error (numpy.linalg.LinAlgError) instead of
silently producing NaN when some point's matrix is singular. -/
def MatrixArray.invert (a : MatrixArray N R) : Except PyErr (MatrixArray N R) :=
  if _h : ∀ n, (a.data n).det ≠ 0 then .ok a.invData else .error .linAlgError

/-- Modelled from the spec: IdentityMatrixArray — the degenerate MatrixArray whose
every point's matrix is the R×R identity. -/
def IdentityMatrixArray (N R : ℕ) (s : Space) : MatrixArray N R :=
  { space := s, data := fun _ => 1 }

/-- The all-zero MatrixArray, the initial contents of freshly allocated
MatrixArrays in PRISM.__init__. -/
def ZeroMatrixArray (N R : ℕ) (s : Space) : MatrixArray N R :=
  { space := s, data := fun _ => 0 }

/-- Modelled from the spec: Domain (typyPRISM.core.Domain, not in src/) holds the
real-space grid `r` and transforms MatrixFields between Real and Fourier space
per matrix element.  The exact discrete transform convention is left open by the
spec, so the two curve transforms are carried as data. -/
structure Domain (N : ℕ) where
  r : Curve N
  toF : Curve N → Curve N
  toR : Curve N → Curve N

/-- The pure payload of the forward transform: every (i,j) entry curve is transformed
independently and the space tag becomes Fourier. -/
def Domain.fourierMA (d : Domain N) (a : MatrixArray N R) : MatrixArray N R :=
  { space := .Fourier, data := fun n => Matrix.of fun i j => d.toF (fun m => a.data m i j) n }

/-- The pure payload of the inverse transform: every (i,j) entry curve is transformed
independently and the space tag becomes Real. -/
def Domain.realMA (d : Domain N) (a : MatrixArray N R) : MatrixArray N R :=
  { space := .Real, data := fun n => Matrix.of fun i j => d.toR (fun m => a.data m i j) n }

/-- Modelled from the spec: Domain.MatrixArray_to_fourier requires the field to be in
Real space, transforms every entry curve with the forward kernel and retags the
field as Fourier. -/
def Domain.MatrixArray_to_fourier (d : Domain N) (a : MatrixArray N R) :
    Except PyErr (MatrixArray N R) :=
  if a.space = Space.Real then .ok (d.fourierMA a) else .error .valueError

/-- Modelled from the spec: Domain.MatrixArray_to_real requires the field to be in
Fourier space, transforms every entry curve with the inverse kernel and retags
the field as Real. -/
def Domain.MatrixArray_to_real (d : Domain N) (a : MatrixArray N R) :
    Except PyErr (MatrixArray N R) :=
  if a.space = Space.Fourier then .ok (d.realMA a) else .error .valueError

/-- Modelled from the spec: a pair potential object; `calc` is U.calculate, mapping
the r grid to the potential curve evaluated on it. -/
structure Potential (N : ℕ) where
  calculate : Curve N → Curve N

/-- Modelled from the spec: the closure capability.  `atomic` carries the closure
formula (a function of the stored potential and the trial curve) together with its
mutable `potential` attribute (None until System.createPRISM assigns it);
`molecular` additionally consumes the two sites' intra-molecular correlation
curves; `other` stands for any object that is neither an AtomicClosure nor a
MolecularClosure instance. -/
inductive Closure (N : ℕ) where
  | atomic (form : Option (Curve N) → Curve N → Curve N) (potential : Option (Curve N))
  | molecular (form : Curve N → Curve N → Curve N → Curve N)
  | other

/-- Does `isinstance` recognize this closure as Atomic or Molecular? -/
def Closure.recognized : Closure N → Bool
  | .atomic _ _ => true
  | .molecular _ => true
  | .other => false

/-- `isinstance(c, MolecularClosure)` on an optional table entry. -/
def isMolecularO : Option (Closure N) → Bool
  | some (.molecular _) => true
  | _ => false

/-- `isinstance(c, AtomicClosure)` on an optional table entry. -/
def isAtomicO : Option (Closure N) → Bool
  | some (.atomic _ _) => true
  | _ => false

/-- Flat solution vectors handled by PRISM.funk: length rank·rank·length, as
allocated by `np.zeros(rank*rank*domain.length)`. -/
def Vec (N R : ℕ) : Type := Fin (N * R * R) → ℚ

lemma fin_R_pos {N R : ℕ} (m : Fin (N * R * R)) : 0 < R := by
  rcases Nat.eq_zero_or_pos R with h | h
  · subst h; exact absurd m.2 (by simp)
  · exact h

lemma fin_N_pos {N R : ℕ} (m : Fin (N * R * R)) : 0 < N := by
  rcases Nat.eq_zero_or_pos N with h | h
  · subst h; exact absurd m.2 (by simp)
  · exact h

lemma flat_mul_lt {a A b B : ℕ} (ha : a < A) (hb : b < B) : a * B + b < A * B := by
  calc a * B + b < a * B + B := by omega
  _ = (a + 1) * B := by ring
  _ ≤ A * B := Nat.mul_le_mul_right B ha

/-- The flat index of entry (i,j) of grid point n under numpy's row-major
`reshape((-1, R, R))` layout: `n·R² + i·R + j`. -/
def flatIdx {N R : ℕ} (n : Fin N) (i j : Fin R) : Fin (N * R * R) :=
  ⟨(n.1 * R + i.1) * R + j.1, flat_mul_lt (flat_mul_lt n.2 i.2) j.2⟩

/-- `x.reshape((-1, rank, rank))`: view the flat vector as one R×R matrix per grid
point. -/
def unflatten {N R : ℕ} (x : Vec N R) (n : Fin N) : Matrix (Fin R) (Fin R) ℚ :=
  Matrix.of fun i j => x (flatIdx n i j)

/-- `y.reshape((-1,))`: flatten a grid of R×R matrices back into a vector, inverse
to `unflatten`. -/
def flatten {N R : ℕ} (g : Fin N → Matrix (Fin R) (Fin R) ℚ) : Vec N R := fun m =>
  have hR : 0 < R := fin_R_pos m
  have hm : m.1 < R * (N * R) := by
    simpa [Nat.mul_comm, Nat.mul_assoc, Nat.mul_left_comm] using m.2
  have h2 : m.1 / R < R * N := by
    simpa [Nat.mul_comm] using Nat.div_lt_of_lt_mul hm
  g ⟨m.1 / R / R, Nat.div_lt_of_lt_mul h2⟩
    ⟨m.1 / R % R, Nat.mod_lt _ hR⟩ ⟨m.1 % R, Nat.mod_lt _ hR⟩

lemma flatten_unflatten {N R : ℕ} (x : Vec N R) : flatten (unflatten x) = x := by
  funext m
  unfold flatten unflatten flatIdx
  simp only [Matrix.of_apply]
  congr 1
  apply Fin.ext
  simp only
  have e1 : ((m.1 / R / R) * R + m.1 / R % R) * R + m.1 % R
      = (m.1 / R) * R + m.1 % R := by
    rw [Nat.div_add_mod' (m.1 / R) R]
  rw [e1, Nat.div_add_mod']

/-- The configuration a single residual evaluation reads: exactly the attributes of a
PRISM object that PRISM.funk consumes without overwriting first (self.long_r,
self.domain, self.closure, self.omega, self.I, self.pairDensityMatrix). -/
structure FunkConfig (N R : ℕ) where
  long_r : Curve N
  domain : Domain N
  closure : Fin R → Fin R → Closure N
  omega : MatrixArray N R
  I : MatrixArray N R
  pairDensityMatrix : Matrix (Fin R) (Fin R) ℚ

/-- Lines 155-156 of PRISM.py: `self.GammaIn.data = np.copy(x.reshape((-1,rank,rank)))`
followed by `self.GammaIn /= self.long_r` — the flat input is reshaped and every
entry of grid point n is divided by r[n]. -/
def GammaInData (c : FunkConfig N R) (x : Vec N R) : Fin N → Matrix (Fin R) (Fin R) ℚ :=
  fun n => Matrix.of fun i j => unflatten x n i j / c.long_r n

/-- The (i,j) entry curve of directCorr produced by the closure dispatch of
PRISM.funk lines 161-167.  `iterpairs` visits each unordered pair once (lo ≤ hi) and
MatrixArray.__setitem__ mirrors the assignment to both orientations, so entry (i,j)
is computed from the canonical pair (min i j, max i j).  Atomic closures consume the
trial curve; Molecular closures additionally consume omega[lo,lo] and omega[hi,hi].
The `other` case is unreachable on the success path (closurePass raises first);
its value here is an arbitrary placeholder. -/
def dcEntry (c : FunkConfig N R) (G : Fin N → Matrix (Fin R) (Fin R) ℚ)
    (i j : Fin R) : Curve N :=
  match c.closure (min i j) (max i j) with
  | .atomic form pot => form pot (fun m => G m (min i j) (max i j))
  | .molecular form =>
      form (fun m => G m (min i j) (max i j))
        (fun m => c.omega.data m (min i j) (min i j))
        (fun m => c.omega.data m (max i j) (max i j))
  | .other => fun _ => 0

/-- The Real-space direct correlation MatrixArray assembled by the closure loop. -/
def dcRealFrom (c : FunkConfig N R) (G : Fin N → Matrix (Fin R) (Fin R) ℚ) :
    MatrixArray N R :=
  { space := .Real, data := fun n => Matrix.of fun i j => dcEntry c G i j n }

/-- The closure loop of PRISM.funk: if every pair's closure is an AtomicClosure or a
MolecularClosure the Real-space directCorr field is produced, otherwise the loop
raises `ValueError('Closure type not recognized')`. -/
def closurePass (c : FunkConfig N R) (G : Fin N → Matrix (Fin R) (Fin R) ℚ) :
    Except PyErr (MatrixArray N R) :=
  if _h : ∀ i j : Fin R, i ≤ j → (c.closure i j).recognized = true then
    .ok (dcRealFrom c G)
  else .error .valueError

/-- directCorr as produced by the closure loop on input x. -/
def dcROf (c : FunkConfig N R) (x : Vec N R) : MatrixArray N R :=
  dcRealFrom c (GammaInData c x)

/-- directCorr after `self.domain.MatrixArray_to_fourier(self.directCorr)`. -/
def dcFOf (c : FunkConfig N R) (x : Vec N R) : MatrixArray N R :=
  c.domain.fourierMA (dcROf c x)

/-- `self.OC = self.omega @ self.directCorr` (Fourier space). -/
def OCOf (c : FunkConfig N R) (x : Vec N R) : MatrixArray N R :=
  c.omega.matmul (dcFOf c x)

/-- `self.IOC = self.I - self.OC` before inversion. -/
def IOC0Of (c : FunkConfig N R) (x : Vec N R) : MatrixArray N R :=
  c.I.sub (OCOf c x)

/-- `self.IOC.invert(inplace=True)`: the per-point inverse of I - OC. -/
def IOCOf (c : FunkConfig N R) (x : Vec N R) : MatrixArray N R :=
  (IOC0Of c x).invData

/-- `self.totalCorr = self.IOC @ self.OC @ self.omega` followed by
`self.totalCorr /= self.pairDensityMatrix`. -/
def TCOf (c : FunkConfig N R) (x : Vec N R) : MatrixArray N R :=
  (((IOCOf c x).matmul (OCOf c x)).matmul c.omega).divByMatrix c.pairDensityMatrix

/-- `self.GammaOut = self.totalCorr - self.directCorr`, still in Fourier space. -/
def GammaOutFOf (c : FunkConfig N R) (x : Vec N R) : MatrixArray N R :=
  (TCOf c x).sub (dcFOf c x)

/-- GammaOut after `self.domain.MatrixArray_to_real(self.GammaOut)`. -/
def GammaOutOf (c : FunkConfig N R) (x : Vec N R) : MatrixArray N R :=
  c.domain.realMA (GammaOutFOf c x)

/-- `self.y = self.long_r*(self.GammaOut.data - self.GammaIn.data)` returned as
`self.y.reshape((-1,))`. -/
def yOf (c : FunkConfig N R) (x : Vec N R) : Vec N R :=
  flatten (fun n => c.long_r n • ((GammaOutOf c x).data n - GammaInData c x n))

/-- The attributes a successful PRISM.funk call overwrites on its instance. -/
structure FunkOut (N R : ℕ) where
  gammaInData : Fin N → Matrix (Fin R) (Fin R) ℚ
  directCorr : MatrixArray N R
  OC : MatrixArray N R
  IOC : MatrixArray N R
  totalCorr : MatrixArray N R
  GammaOut : MatrixArray N R

/-- The FunkOut record a successful evaluation produces. -/
def outOf (c : FunkConfig N R) (x : Vec N R) : FunkOut N R :=
  { gammaInData := GammaInData c x, directCorr := dcFOf c x, OC := OCOf c x,
    IOC := IOCOf c x, totalCorr := TCOf c x, GammaOut := GammaOutOf c x }

/-- The body of PRISM.funk (PRISM.py lines 151-184), embedded as a pure function of
the configuration it reads.  Named intermediates of the source (`self.OC`,
`self.totalCorr`) are pure values here, so they are written out at each use site. -/
def funkCore (c : FunkConfig N R) (x : Vec N R) : Except PyErr (FunkOut N R × Vec N R) :=
  (closurePass c (GammaInData c x)).bind fun dcReal =>
  (c.domain.MatrixArray_to_fourier dcReal).bind fun directCorr =>
  ((c.I.sub (c.omega.matmul directCorr)).invert).bind fun IOC =>
  (c.domain.MatrixArray_to_real
      ((((IOC.matmul (c.omega.matmul directCorr)).matmul c.omega).divByMatrix
        c.pairDensityMatrix).sub directCorr)).bind fun GammaOut =>
  .ok ({ gammaInData := GammaInData c x, directCorr := directCorr,
         OC := c.omega.matmul directCorr, IOC := IOC,
         totalCorr := ((IOC.matmul (c.omega.matmul directCorr)).matmul c.omega).divByMatrix
           c.pairDensityMatrix,
         GammaOut := GammaOut },
       flatten (fun n => c.long_r n • (GammaOut.data n - GammaInData c x n)))

/-- The PRISM problem container (PRISM.py class PRISM): constants fixed by
__init__ plus the working arrays mutated by funk.  `IOC` is Option-valued because
the attribute does not exist until the first funk call creates it. -/
structure PRISM (N R : ℕ) where
  kT : ℚ
  domain : Domain N
  closure : Fin R → Fin R → Closure N
  long_r : Curve N
  omega : MatrixArray N R
  x : Vec N R
  y : Vec N R
  directCorr : MatrixArray N R
  pairCorr : MatrixArray N R
  totalCorr : MatrixArray N R
  GammaIn : MatrixArray N R
  GammaOut : MatrixArray N R
  OC : MatrixArray N R
  I : MatrixArray N R
  IOC : Option (MatrixArray N R)
  pairDensityMatrix : Matrix (Fin R) (Fin R) ℚ
  siteDensityMatrix : Matrix (Fin R) (Fin R) ℚ

/-- PRISM.__init__ (PRISM.py lines 95-122): stores the seven construction arguments,
sets long_r from the domain grid, zeroes x and y, pre-allocates the working
MatrixArrays with their initial space tags, and builds the identity array. -/
def PRISM.init (domain : Domain N) (closure : Fin R → Fin R → Closure N)
    (omega : MatrixArray N R) (pairDensityMatrix siteDensityMatrix : Matrix (Fin R) (Fin R) ℚ)
    (kT : ℚ) : PRISM N R :=
  { kT := kT, domain := domain, closure := closure, long_r := domain.r, omega := omega,
    x := fun _ => 0, y := fun _ => 0,
    directCorr := ZeroMatrixArray N R .Real, pairCorr := ZeroMatrixArray N R .Real,
    totalCorr := ZeroMatrixArray N R .Fourier, GammaIn := ZeroMatrixArray N R .Real,
    GammaOut := ZeroMatrixArray N R .Real, OC := ZeroMatrixArray N R .Fourier,
    I := IdentityMatrixArray N R .Fourier, IOC := none,
    pairDensityMatrix := pairDensityMatrix, siteDensityMatrix := siteDensityMatrix }

/-- Projection of a PRISM instance onto the attributes its funk method reads. -/
def PRISM.funkConfig (st : PRISM N R) : FunkConfig N R :=
  { long_r := st.long_r, domain := st.domain, closure := st.closure, omega := st.omega,
    I := st.I, pairDensityMatrix := st.pairDensityMatrix }

/-- PRISM.funk: evaluates the residual, overwriting the instance's working arrays
and returning the flattened residual vector.  The space tag of self.GammaIn is
untouched by the data assignment and the in-place division, so it carries over. -/
def PRISM.funk (st : PRISM N R) (x : Vec N R) : Except PyErr (PRISM N R × Vec N R) :=
  (funkCore st.funkConfig x).bind fun p =>
    .ok ({ st with
            x := x, y := p.2,
            GammaIn := { space := st.GammaIn.space, data := p.1.gammaInData },
            directCorr := p.1.directCorr, OC := p.1.OC, IOC := some p.1.IOC,
            totalCorr := p.1.totalCorr, GammaOut := p.1.GammaOut }, p.2)

/-- The instance state after a successful funk call on input x. -/
def stAfter (st : PRISM N R) (x : Vec N R) : PRISM N R :=
  { st with
    x := x, y := yOf st.funkConfig x,
    GammaIn := { space := st.GammaIn.space, data := GammaInData st.funkConfig x },
    directCorr := dcFOf st.funkConfig x, OC := OCOf st.funkConfig x,
    IOC := some (IOCOf st.funkConfig x), totalCorr := TCOf st.funkConfig x,
    GammaOut := GammaOutOf st.funkConfig x }

/-- The System container (System.py class System), parametrized by the grid length N
of the domain it may carry and the number of site types R (`self.rank`).  Tables
are Option-valued: `none` is an entry the user has not set (System.__init__ fills
every table with unset entries and `self.domain = None`).  `Modelled from the spec:`
the table classes ValueTable, PairTable and Density are not in src/; they are maps
from types, or unordered type pairs, to optional values. -/
structure System (N R : ℕ) where
  kT : ℚ
  domain : Option (Domain N)
  diameter : Fin R → Option ℚ
  density : Fin R → Option ℚ
  potential : Fin R → Fin R → Option (Potential N)
  closure : Fin R → Fin R → Option (Closure N)
  omega : Fin R → Fin R → Option (Curve N)

/-- System.check (System.py lines 112-125): each of the five tables — density,
potential, closure, omega and diameter, in that order — raises ValueError if any of
its entries is unset (Modelled from the spec and from the docstring: ValueError if
all values are not set), and afterwards a missing domain raises ValueError. -/
def System.check (s : System N R) : Except PyErr Unit :=
  if ∀ i, (s.density i).isSome then
    if ∀ i j, (s.potential i j).isSome then
      if ∀ i j, (s.closure i j).isSome then
        if ∀ i j, (s.omega i j).isSome then
          if ∀ i, (s.diameter i).isSome then
            match s.domain with
            | none => .error .valueError
            | some _ => .ok ()
          else .error .valueError
        else .error .valueError
      else .error .valueError
    else .error .valueError
  else .error .valueError

/-- The closure-potential loop of System.createPRISM (System.py lines 130-136):
iterating over the unordered pairs of the potential table, an AtomicClosure at the
pair receives `U.calculate(self.domain.r) / self.kT` as its potential; a
MolecularClosure raises NotImplementedError; anything else is skipped silently.
Reading `self.domain.r` with no domain set would raise AttributeError (None has no
attribute r).  Because each closure object is shared by both orientations of its
pair, the functional update writes through the canonical (min,max) orientation.
Assignments made to pairs iterated before a NotImplementedError are not observable
through the Except interface and are not modelled. -/
def System.setClosurePotentials (s : System N R) : Except PyErr (System N R) :=
  match s.domain with
  | none => .error .attributeError
  | some d =>
    if _h : ∃ i j : Fin R, i ≤ j ∧ isMolecularO (s.closure i j) = true then
      .error .notImplementedError
    else
      .ok { s with
            closure := fun i j =>
              match s.closure (min i j) (max i j), s.potential (min i j) (max i j) with
              | some (.atomic form _), some U =>
                  some (.atomic form (some (fun n => U.calculate d.r n / s.kT)))
              | _, _ => s.closure i j }

/-- System.createPRISM (System.py lines 126-138): runs the sanity check, assigns the
closure potentials, then executes `return PRISM(self)`.  That constructor call
passes a single argument (the System) where PRISM.__init__ requires seven
(rank, domain, closure, omega, pairDensityMatrix, siteDensityMatrix, kT), so
Python raises TypeError before any PRISM instance exists; the call is embedded
as that TypeError. -/
def System.createPRISM (s : System N R) : Except PyErr (PRISM N R) :=
  (s.check).bind fun _ =>
  (s.setClosurePotentials).bind fun _ =>
  .error .typeError

lemma exbind_ok {α β : Type _} (a : α) (f : α → Except PyErr β) :
    (Except.ok a : Except PyErr α).bind f = f a := rfl

lemma exbind_err {α β : Type _} (e : PyErr) (f : α → Except PyErr β) :
    (Except.error e : Except PyErr α).bind f = .error e := rfl

lemma exbind_ok_inv {α β : Type _} {e : Except PyErr α} {f : α → Except PyErr β} {b : β}
    (h : e.bind f = .ok b) : ∃ a, e = .ok a ∧ f a = .ok b := by
  cases e with
  | error e' => exact absurd h (by simp [Except.bind])
  | ok a => exact ⟨a, rfl, h⟩

lemma closurePass_ok_of {c : FunkConfig N R} {G : Fin N → Matrix (Fin R) (Fin R) ℚ}
    (h : ∀ i j : Fin R, i ≤ j → (c.closure i j).recognized = true) :
    closurePass c G = .ok (dcRealFrom c G) := dif_pos h

lemma closurePass_err_of {c : FunkConfig N R} {G : Fin N → Matrix (Fin R) (Fin R) ℚ}
    (h : ¬ ∀ i j : Fin R, i ≤ j → (c.closure i j).recognized = true) :
    closurePass c G = .error .valueError := dif_neg h

lemma closurePass_ok_inv {c : FunkConfig N R} {G : Fin N → Matrix (Fin R) (Fin R) ℚ}
    {a : MatrixArray N R} (h : closurePass c G = .ok a) : a = dcRealFrom c G := by
  unfold closurePass at h
  split at h
  · exact (Except.ok.inj h).symm
  · exact Except.noConfusion h

lemma toF_ok_of {d : Domain N} {a : MatrixArray N R} (h : a.space = Space.Real) :
    d.MatrixArray_to_fourier a = .ok (d.fourierMA a) := if_pos h

lemma toF_ok_inv {d : Domain N} {a b : MatrixArray N R}
    (h : d.MatrixArray_to_fourier a = .ok b) : b = d.fourierMA a := by
  unfold Domain.MatrixArray_to_fourier at h
  split at h
  · exact (Except.ok.inj h).symm
  · exact Except.noConfusion h

lemma toR_ok_of {d : Domain N} {a : MatrixArray N R} (h : a.space = Space.Fourier) :
    d.MatrixArray_to_real a = .ok (d.realMA a) := if_pos h

lemma toR_ok_inv {d : Domain N} {a b : MatrixArray N R}
    (h : d.MatrixArray_to_real a = .ok b) : b = d.realMA a := by
  unfold Domain.MatrixArray_to_real at h
  split at h
  · exact (Except.ok.inj h).symm
  · exact Except.noConfusion h

lemma invert_ok_of {a : MatrixArray N R} (h : ∀ n, (a.data n).det ≠ 0) :
    a.invert = .ok a.invData := dif_pos h

lemma invert_err_of {a : MatrixArray N R} (h : ∃ n, (a.data n).det = 0) :
    a.invert = .error .linAlgError := by
  apply dif_neg
  intro hall
  obtain ⟨n, hn⟩ := h
  exact hall n hn

lemma invert_ok_inv {a b : MatrixArray N R} (h : a.invert = .ok b) : b = a.invData := by
  unfold MatrixArray.invert at h
  split at h
  · exact (Except.ok.inj h).symm
  · exact Except.noConfusion h

/-- On the success path — every closure recognized, identity array in Fourier space,
every per-point matrix of I - OC nonsingular — funkCore produces exactly the stage
values. -/
lemma funkCore_eq_of {c : FunkConfig N R} {x : Vec N R}
    (hrec : ∀ i j : Fin R, i ≤ j → (c.closure i j).recognized = true)
    (hI : c.I.space = Space.Fourier)
    (hdet : ∀ n, ((IOC0Of c x).data n).det ≠ 0) :
    funkCore c x = .ok (outOf c x, yOf c x) := by
  have h1 : closurePass c (GammaInData c x) = .ok (dcROf c x) := closurePass_ok_of hrec
  have h2 : c.domain.MatrixArray_to_fourier (dcROf c x) = .ok (dcFOf c x) := toF_ok_of rfl
  have h3 : (c.I.sub (c.omega.matmul (dcFOf c x))).invert = .ok (IOCOf c x) :=
    invert_ok_of hdet
  have hsp : (GammaOutFOf c x).space = Space.Fourier := hI
  have h4 : c.domain.MatrixArray_to_real
      ((((((IOCOf c x).matmul (c.omega.matmul (dcFOf c x))).matmul c.omega).divByMatrix
        c.pairDensityMatrix)).sub (dcFOf c x)) = .ok (GammaOutOf c x) := toR_ok_of hsp
  unfold funkCore
  rw [h1, exbind_ok, h2, exbind_ok, h3, exbind_ok, h4, exbind_ok]
  rfl

/-- Inversion: a successful funkCore run determines its outputs as the stage values. -/
lemma funkCore_ok_inv {c : FunkConfig N R} {x : Vec N R} {out : FunkOut N R} {y : Vec N R}
    (h : funkCore c x = .ok (out, y)) : out = outOf c x ∧ y = yOf c x := by
  unfold funkCore at h
  obtain ⟨dcReal, h1, h⟩ := exbind_ok_inv h
  obtain rfl := closurePass_ok_inv h1
  obtain ⟨dcF, h2, h⟩ := exbind_ok_inv h
  obtain rfl := toF_ok_inv h2
  obtain ⟨IOC, h3, h⟩ := exbind_ok_inv h
  obtain rfl := invert_ok_inv h3
  obtain ⟨GOut, h4, h⟩ := exbind_ok_inv h
  obtain rfl := toR_ok_inv h4
  have h5 := Except.ok.inj h
  exact ⟨(congrArg Prod.fst h5).symm, (congrArg Prod.snd h5).symm⟩

/-- A successful funk call determines the new instance state and the residual. -/
lemma funk_ok_inv {st : PRISM N R} {x : Vec N R} {st' : PRISM N R} {y : Vec N R}
    (h : st.funk x = .ok (st', y)) :
    st' = stAfter st x ∧ y = yOf st.funkConfig x := by
  unfold PRISM.funk at h
  obtain ⟨p, hp, h⟩ := exbind_ok_inv h
  obtain ⟨out, y0⟩ := p
  obtain ⟨rfl, rfl⟩ := funkCore_ok_inv hp
  have h5 := Except.ok.inj h
  exact ⟨(congrArg Prod.fst h5).symm, (congrArg Prod.snd h5).symm⟩

/-- Forward evaluation of a whole funk call on the success path. -/
lemma funk_eq_of {st : PRISM N R} {x : Vec N R}
    (hrec : ∀ i j : Fin R, i ≤ j → (st.closure i j).recognized = true)
    (hI : st.I.space = Space.Fourier)
    (hdet : ∀ n, ((IOC0Of st.funkConfig x).data n).det ≠ 0) :
    st.funk x = .ok (stAfter st x, yOf st.funkConfig x) := by
  unfold PRISM.funk
  rw [funkCore_eq_of hrec hI hdet, exbind_ok]
  rfl

/-- A one-point, one-site-type domain with r = 1 and identity transform kernels
(any consistent invertible convention is admitted by the spec). -/
def dom1 : Domain 1 := { r := fun _ => 1, toF := fun f => f, toR := fun f => f }

/-- A concrete atomic closure whose formula returns the trial curve itself. -/
def clW : Closure 1 := .atomic (fun _ g => g) none

/-- A concrete atomic closure whose formula is constantly one. -/
def clS : Closure 1 := .atomic (fun _ _ => fun _ => 1) none

/-- A concrete molecular closure. -/
def clM : Closure 1 := .molecular (fun g _ _ => g)

/-- A concrete Fourier-space omega field with constant value 2. -/
def omegaW : MatrixArray 1 1 := { space := .Fourier, data := fun _ => Matrix.of fun _ _ => 2 }

/-- A concrete Fourier-space omega field with constant value 1. -/
def omegaS : MatrixArray 1 1 := { space := .Fourier, data := fun _ => Matrix.of fun _ _ => 1 }

/-- A concrete 1×1 density matrix. -/
def pdW : Matrix (Fin 1) (Fin 1) ℚ := Matrix.of fun _ _ => 1

/-- A freshly constructed solver on the regular concrete configuration. -/
def stW : PRISM 1 1 := PRISM.init dom1 (fun _ _ => clW) omegaW pdW pdW 1

/-- A freshly constructed solver whose configuration makes I - OC singular. -/
def stS : PRISM 1 1 := PRISM.init dom1 (fun _ _ => clS) omegaS pdW pdW 1

/-- A freshly constructed solver whose closure table holds an unrecognized object. -/
def stO : PRISM 1 1 := PRISM.init dom1 (fun _ _ => Closure.other) omegaW pdW pdW 1

/-- Concrete input vector with single entry 3. -/
def xW : Vec 1 1 := fun _ => 3

/-- The all-zero input vector on the one-point grid. -/
def x0 : Vec 1 1 := fun _ => 0

lemma IOC0W_entry (n : Fin 1) :
    (IOC0Of stW.funkConfig xW).data n = Matrix.of fun _ _ => (-5 : ℚ) := by
  ext i j
  fin_cases i
  fin_cases j
  simp [IOC0Of, OCOf, dcFOf, dcROf, dcRealFrom, dcEntry, GammaInData, MatrixArray.sub,
    MatrixArray.matmul, Domain.fourierMA, stW, PRISM.init, PRISM.funkConfig, dom1, clW,
    omegaW, unflatten, xW, IdentityMatrixArray, Matrix.mul_apply, Matrix.sub_apply,
    Matrix.of_apply, Matrix.one_apply, Fin.sum_univ_one]
  norm_num

lemma hdetW : ∀ n : Fin 1, ((IOC0Of stW.funkConfig xW).data n).det ≠ 0 := by
  intro n
  rw [IOC0W_entry n, Matrix.det_fin_one]
  simp [Matrix.of_apply]

lemma funkW : stW.funk xW = .ok (stAfter stW xW, yOf stW.funkConfig xW) :=
  funk_eq_of (by decide) rfl hdetW

lemma IOC0S_entry (n : Fin 1) :
    (IOC0Of stS.funkConfig x0).data n = Matrix.of fun _ _ => (0 : ℚ) := by
  ext i j
  fin_cases i
  fin_cases j
  simp [IOC0Of, OCOf, dcFOf, dcROf, dcRealFrom, dcEntry, GammaInData, MatrixArray.sub,
    MatrixArray.matmul, Domain.fourierMA, stS, PRISM.init, PRISM.funkConfig, dom1, clS,
    omegaS, unflatten, x0, IdentityMatrixArray, Matrix.mul_apply, Matrix.sub_apply,
    Matrix.of_apply, Matrix.one_apply, Fin.sum_univ_one]

lemma hdetS : ((IOC0Of stS.funkConfig x0).data 0).det = 0 := by
  rw [IOC0S_entry 0, Matrix.det_fin_one]
  simp [Matrix.of_apply]

/-- System.check succeeds exactly when every table entry (density, potential, closure,
omega, diameter) is set and a domain is assigned. -/
lemma check_ok_iff {N R : ℕ} (s : System N R) :
    s.check = .ok () ↔
      ((∀ i, (s.density i).isSome) ∧ (∀ i j, (s.potential i j).isSome) ∧
       (∀ i j, (s.closure i j).isSome) ∧ (∀ i j, (s.omega i j).isSome) ∧
       (∀ i, (s.diameter i).isSome) ∧ (s.domain).isSome) := by
  unfold System.check
  split_ifs with h1 h2 h3 h4 h5 <;> (try cases hd : s.domain) <;> simp_all

/-- System.check returns either success or a ValueError. -/
lemma check_cases {N R : ℕ} (s : System N R) :
    s.check = .ok () ∨ s.check = .error PyErr.valueError := by
  unfold System.check
  split_ifs <;> (try cases s.domain) <;> simp

/-- A concrete pair potential object. -/
def UW : Potential 1 := ⟨fun f => f⟩

/-- A fully specified single-site system with an atomic closure. -/
def SA : System 1 1 :=
  { kT := 1, domain := some dom1, diameter := fun _ => some 1, density := fun _ => some 1,
    potential := fun _ _ => some UW, closure := fun _ _ => some clW,
    omega := fun _ _ => some (fun _ => 1) }

/-- A system fully specified except for its diameter table. -/
def Sd : System 1 1 :=
  { kT := 1, domain := some dom1, diameter := fun _ => none, density := fun _ => some 1,
    potential := fun _ _ => some UW, closure := fun _ _ => some clW,
    omega := fun _ _ => some (fun _ => 1) }

/-- A fully specified system whose closure entry is an unrecognized object. -/
def SO : System 1 1 :=
  { kT := 1, domain := some dom1, diameter := fun _ => some 1, density := fun _ => some 1,
    potential := fun _ _ => some UW, closure := fun _ _ => some Closure.other,
    omega := fun _ _ => some (fun _ => 1) }

/-- A fully specified system whose closure entry is a molecular closure. -/
def SM : System 1 1 :=
  { kT := 1, domain := some dom1, diameter := fun _ => some 1, density := fun _ => some 1,
    potential := fun _ _ => some UW, closure := fun _ _ => some clM,
    omega := fun _ _ => some (fun _ => 1) }

/-- Claim C1: System.createPRISM never returns a constructed PRISM instance, for any
System whatsoever — validated or not.  The final statement `return PRISM(self)`
passes one argument to a constructor that requires seven, so every call that
reaches it raises TypeError, and calls that do not reach it raised earlier.  This
refutes the lifecycle claim that construction from a validated System succeeds. -/
theorem createPRISM_never_constructs (N R : ℕ) (s : System N R) :
    (s.createPRISM).isOk = false := by
  unfold System.createPRISM
  cases hc : s.check with
  | error e => rfl
  | ok u =>
    cases hp : s.setClosurePotentials with
    | error e => rfl
    | ok s' => rfl

/-- Claim C6 counterexample: a system whose density, potential, closure and omega
tables are all set and whose domain is assigned — everything the claim lists —
still fails System.check with a ValueError, because its diameter table is unset. -/
theorem check_missing_diameter_cex :
    (∀ i, (Sd.density i).isSome) ∧ (∀ i j : Fin 1, (Sd.potential i j).isSome) ∧
    (∀ i j : Fin 1, (Sd.closure i j).isSome) ∧ (∀ i j : Fin 1, (Sd.omega i j).isSome) ∧
    (Sd.domain).isSome ∧ Sd.check = .error PyErr.valueError :=
  ⟨fun _ => rfl, fun _ _ => rfl, fun _ _ => rfl, fun _ _ => rfl, rfl, rfl⟩

/-- Claim C6 (amended): System.check raises ValueError exactly when the domain is
unassigned or some density, potential, closure, omega or diameter entry is unset;
it passes exactly when all of those are set. -/
theorem check_valueError_characterization (N R : ℕ) (s : System N R) :
    (s.check = .ok () ↔
      ((∀ i, (s.density i).isSome) ∧ (∀ i j, (s.potential i j).isSome) ∧
       (∀ i j, (s.closure i j).isSome) ∧ (∀ i j, (s.omega i j).isSome) ∧
       (∀ i, (s.diameter i).isSome) ∧ (s.domain).isSome)) ∧
    (s.check = .error PyErr.valueError ↔
      ¬((∀ i, (s.density i).isSome) ∧ (∀ i j, (s.potential i j).isSome) ∧
        (∀ i j, (s.closure i j).isSome) ∧ (∀ i j, (s.omega i j).isSome) ∧
        (∀ i, (s.diameter i).isSome) ∧ (s.domain).isSome)) := by
  refine ⟨check_ok_iff s, ?_, ?_⟩
  · intro herr hconj
    have hok := (check_ok_iff s).mpr hconj
    rw [hok] at herr
    exact Except.noConfusion herr
  · intro hn
    rcases check_cases s with hok | herr
    · exact absurd ((check_ok_iff s).mp hok) hn
    · exact herr

/-- Claim C7: during createPRISM's closure loop, every pair whose assigned closure is
an AtomicClosure receives the precomputed real-space potential curve
`U.calculate(domain.r) / kT` — the pair's potential evaluated on the domain grid,
scaled by the thermal energy kT — provided the loop completes (no molecular
closure aborts it). -/
theorem setClosurePotentials_assigns_atomic {N R : ℕ} (s : System N R) (d : Domain N)
    (i j : Fin R) (form : Option (Curve N) → Curve N → Curve N) (p : Option (Curve N))
    (U : Potential N)
    (hd : s.domain = some d)
    (hnomol : ∀ a b : Fin R, a ≤ b → isMolecularO (s.closure a b) = false)
    (hij : i ≤ j)
    (hcl : s.closure i j = some (.atomic form p))
    (hU : s.potential i j = some U) :
    ∃ s', s.setClosurePotentials = .ok s' ∧
      s'.closure i j = some (.atomic form (some (fun n => U.calculate d.r n / s.kT))) := by
  unfold System.setClosurePotentials
  rw [hd]
  have hne : ¬∃ a b : Fin R, a ≤ b ∧ isMolecularO (s.closure a b) = true := by
    rintro ⟨a, b, hab, hm⟩
    rw [hnomol a b hab] at hm
    exact Bool.noConfusion hm
  dsimp only
  rw [dif_neg hne]
  refine ⟨_, rfl, ?_⟩
  have hmin : min i j = i := min_eq_left hij
  have hmax : max i j = j := max_eq_right hij
  simp only [hmin, hmax, hcl, hU]

/-- Claim C7 witness: on the concrete fully specified atomic system, the closure at
pair (0,0) receives the potential curve U(r)/kT. -/
theorem setClosurePotentials_assigns_atomic_witness :
    ∃ s', SA.setClosurePotentials = .ok s' ∧
      s'.closure 0 0 = some (.atomic (fun _ g => g)
        (some (fun n => UW.calculate dom1.r n / SA.kT))) :=
  setClosurePotentials_assigns_atomic SA dom1 0 0 (fun _ g => g) none UW rfl
    (by decide) (le_refl 0) rfl rfl

/-- Claim C10: on any fully specified System with a MolecularClosure assigned to some
pair, createPRISM raises NotImplementedError from its closure loop — before the
final constructor call is reached, hence before any PRISM object could exist. -/
theorem createPRISM_molecular_notImplemented {N R : ℕ} (s : System N R)
    (hcheck : s.check = .ok ())
    (hmol : ∃ i j : Fin R, i ≤ j ∧ isMolecularO (s.closure i j) = true) :
    s.createPRISM = .error PyErr.notImplementedError := by
  unfold System.createPRISM
  rw [hcheck, exbind_ok]
  have hd : (s.domain).isSome := ((check_ok_iff s).mp hcheck).2.2.2.2.2
  obtain ⟨d, hd'⟩ := Option.isSome_iff_exists.mp hd
  unfold System.setClosurePotentials
  rw [hd']
  dsimp only
  rw [dif_pos hmol, exbind_err]

/-- Claim C10 witness: the concrete molecular-closure system is rejected with
NotImplementedError by createPRISM. -/
theorem createPRISM_molecular_notImplemented_witness :
    SM.createPRISM = .error PyErr.notImplementedError :=
  createPRISM_molecular_notImplemented SM rfl ⟨0, 0, le_refl 0, rfl⟩

/-- Claim C2: a successful PRISM.funk call interprets the flat input x (length
rank²·N) as the field r·γ_in: the stored GammaIn is x reshaped into a Real-space
matrix field with every entry curve divided pointwise by r, and the returned
residual is r·(GammaOut − GammaIn) flattened back to a vector of length rank²·N. -/
theorem funk_unflatten_and_residual {N R : ℕ} (st : PRISM N R) (x : Vec N R)
    (st' : PRISM N R) (y : Vec N R) (h : st.funk x = .ok (st', y))
    (hsp : st.GammaIn.space = Space.Real) :
    st'.GammaIn.space = Space.Real ∧
    (∀ n i j, st'.GammaIn.data n i j = x (flatIdx n i j) / st.long_r n) ∧
    y = flatten (fun n => st.long_r n • (st'.GammaOut.data n - st'.GammaIn.data n)) := by
  obtain ⟨rfl, rfl⟩ := funk_ok_inv h
  exact ⟨hsp, fun n i j => rfl, rfl⟩

/-- Claim C2 witness: the concrete successful evaluation satisfies the unflatten and
residual equations. -/
theorem funk_unflatten_and_residual_witness :
    (stAfter stW xW).GammaIn.space = Space.Real ∧
    (∀ n i j, (stAfter stW xW).GammaIn.data n i j = xW (flatIdx n i j) / stW.long_r n) ∧
    yOf stW.funkConfig xW =
      flatten (fun n => stW.long_r n •
        ((stAfter stW xW).GammaOut.data n - (stAfter stW xW).GammaIn.data n)) :=
  funk_unflatten_and_residual stW xW (stAfter stW xW) (yOf stW.funkConfig xW) funkW rfl

/-- Claim C3: inside a successful PRISM.funk call, after directCorr is transformed to
Fourier space, OC = Omega·directCorr, IOC is the per-point inverse of I − OC,
totalCorr = IOC·OC·Omega divided pointwise by the pair-density matrix, and
GammaOut = totalCorr − directCorr is formed while still tagged Fourier and only
then transformed back to real space. -/
theorem funk_prism_matrix_equation {N R : ℕ} (st : PRISM N R) (x : Vec N R)
    (st' : PRISM N R) (y : Vec N R) (h : st.funk x = .ok (st', y))
    (hw : st.omega.space = Space.Fourier) (hI : st.I.space = Space.Fourier) :
    st'.directCorr = st.domain.fourierMA (dcROf st.funkConfig x) ∧
    st'.directCorr.space = Space.Fourier ∧
    st'.OC = st.omega.matmul st'.directCorr ∧
    st'.OC.space = Space.Fourier ∧
    st'.IOC = some ((st.I.sub st'.OC).invData) ∧
    (∀ n, ((st.I.sub st'.OC).invData).data n = matInv ((st.I.sub st'.OC).data n)) ∧
    st'.totalCorr =
      ((((st.I.sub st'.OC).invData).matmul st'.OC).matmul st.omega).divByMatrix
        st.pairDensityMatrix ∧
    (st'.totalCorr.sub st'.directCorr).space = Space.Fourier ∧
    st'.GammaOut = st.domain.realMA (st'.totalCorr.sub st'.directCorr) ∧
    st'.GammaOut.space = Space.Real := by
  obtain ⟨rfl, rfl⟩ := funk_ok_inv h
  exact ⟨rfl, rfl, rfl, hw, rfl, fun n => rfl, rfl, hI, rfl, rfl⟩

/-- Claim C3 witness: the Fourier-space matrix algebra holds on the concrete
successful evaluation. -/
theorem funk_prism_matrix_equation_witness :
    (stAfter stW xW).directCorr = stW.domain.fourierMA (dcROf stW.funkConfig xW) ∧
    (stAfter stW xW).directCorr.space = Space.Fourier ∧
    (stAfter stW xW).OC = stW.omega.matmul (stAfter stW xW).directCorr ∧
    (stAfter stW xW).OC.space = Space.Fourier ∧
    (stAfter stW xW).IOC = some ((stW.I.sub (stAfter stW xW).OC).invData) ∧
    (∀ n, ((stW.I.sub (stAfter stW xW).OC).invData).data n =
      matInv ((stW.I.sub (stAfter stW xW).OC).data n)) ∧
    (stAfter stW xW).totalCorr =
      ((((stW.I.sub (stAfter stW xW).OC).invData).matmul (stAfter stW xW).OC).matmul
        stW.omega).divByMatrix stW.pairDensityMatrix ∧
    ((stAfter stW xW).totalCorr.sub (stAfter stW xW).directCorr).space = Space.Fourier ∧
    (stAfter stW xW).GammaOut =
      stW.domain.realMA ((stAfter stW xW).totalCorr.sub (stAfter stW xW).directCorr) ∧
    (stAfter stW xW).GammaOut.space = Space.Real :=
  funk_prism_matrix_equation stW xW (stAfter stW xW) (yOf stW.funkConfig xW) funkW rfl rfl

/-- Claim C4: if the per-point matrix I − OC determined by the input x is singular at
some grid point (and every closure is recognized, so the evaluation reaches the
inversion), PRISM.funk raises the numerical error of MatrixArray.invert and
propagates it out of the call instead of returning a value. -/
theorem funk_singular_raises {N R : ℕ} (st : PRISM N R) (x : Vec N R)
    (hrec : ∀ i j : Fin R, i ≤ j → (st.closure i j).recognized = true)
    (hsing : ∃ n, ((IOC0Of st.funkConfig x).data n).det = 0) :
    st.funk x = .error PyErr.linAlgError := by
  unfold PRISM.funk funkCore
  rw [closurePass_ok_of hrec, exbind_ok, toF_ok_of rfl, exbind_ok]
  have hinv : ((st.funkConfig.I.sub
      (st.funkConfig.omega.matmul
        (st.funkConfig.domain.fourierMA
          (dcRealFrom st.funkConfig (GammaInData st.funkConfig x))))).invert)
      = .error .linAlgError := invert_err_of hsing
  rw [hinv, exbind_err, exbind_err]

/-- Claim C4 witness: on the concrete configuration forcing OC to have eigenvalue 1,
funk raises the numerical error. -/
theorem funk_singular_raises_witness : stS.funk x0 = .error PyErr.linAlgError :=
  funk_singular_raises stS x0 (by decide) ⟨0, hdetS⟩

/-- Claim C5 counterexample: a fully specified system carrying an unrecognized
closure object passes System.check, passes createPRISM's closure loop without any
closure-kind rejection, and only the residual evaluator raises the ValueError —
so the unrecognized kind is not rejected as a configuration error before a solve
attempt. -/
theorem unrecognized_closure_not_rejected_before_solve_cex :
    SO.check = .ok () ∧ (SO.setClosurePotentials).isOk = true ∧
    stO.funk x0 = .error PyErr.valueError := by
  refine ⟨rfl, rfl, ?_⟩
  unfold PRISM.funk funkCore
  have hcp : closurePass stO.funkConfig (GammaInData stO.funkConfig x0)
      = .error .valueError := by
    apply closurePass_err_of
    intro hall
    exact Bool.noConfusion (hall 0 0 (le_refl 0))
  rw [hcp, exbind_err, exbind_err]

/-- Claim C5 (amended): an unrecognized closure kind is not rejected before solving;
instead the first residual evaluation that dispatches on it raises
`ValueError('Closure type not recognized')` — a fatal error, not a silent
default. -/
theorem funk_unrecognized_closure_valueError {N R : ℕ} (st : PRISM N R) (x : Vec N R)
    (hbad : ∃ i j : Fin R, i ≤ j ∧ (st.closure i j).recognized = false) :
    st.funk x = .error PyErr.valueError := by
  unfold PRISM.funk funkCore
  have hcp : closurePass st.funkConfig (GammaInData st.funkConfig x)
      = .error .valueError := by
    apply closurePass_err_of
    intro hall
    obtain ⟨i, j, hij, hr⟩ := hbad
    have h2 : (st.closure i j).recognized = true := hall i j hij
    rw [h2] at hr
    exact Bool.noConfusion hr
  rw [hcp, exbind_err, exbind_err]

/-- Claim C5 witness: the concrete solver holding an unrecognized closure raises the
ValueError from its residual evaluation. -/
theorem funk_unrecognized_closure_valueError_witness :
    stO.funk xW = .error PyErr.valueError :=
  funk_unrecognized_closure_valueError stO xW ⟨0, 0, le_refl 0, rfl⟩

/-- Claim C8: the residual function is deterministic and instance-independent — two
solver states sharing the same configuration (the attributes funk reads: long_r,
domain, closure table, omega, identity array, pair-density matrix) produce the
same residual vector on the same input, whatever their scratch fields contain,
hence whatever prior calls produced them. -/
theorem funk_deterministic_across_instances {N R : ℕ} (s1 s2 : PRISM N R) (x : Vec N R)
    (h : s1.funkConfig = s2.funkConfig) :
    (s1.funk x).map Prod.snd = (s2.funk x).map Prod.snd := by
  unfold PRISM.funk
  rw [h]
  cases funkCore s2.funkConfig x with
  | error e => rfl
  | ok p => rfl

/-- Claim C8 witness: a fresh instance and the mutated instance left by a prior call
share a configuration and return the same residual for the same input. -/
theorem funk_deterministic_across_instances_witness :
    (stW.funk xW).map Prod.snd = ((stAfter stW xW).funk xW).map Prod.snd :=
  funk_deterministic_across_instances stW (stAfter stW xW) xW rfl

/-- Claim C9: a completed residual evaluation leaves the solver's constant inputs
unchanged — omega, the identity array, and the pair- and site-density matrices
hold the same values after the call as before it. -/
theorem funk_preserves_constant_inputs {N R : ℕ} (st : PRISM N R) (x : Vec N R)
    (st' : PRISM N R) (y : Vec N R) (h : st.funk x = .ok (st', y)) :
    st'.omega = st.omega ∧ st'.I = st.I ∧
    st'.pairDensityMatrix = st.pairDensityMatrix ∧
    st'.siteDensityMatrix = st.siteDensityMatrix := by
  obtain ⟨rfl, -⟩ := funk_ok_inv h
  exact ⟨rfl, rfl, rfl, rfl⟩

/-- Claim C9 witness: the concrete successful evaluation leaves omega, I and the
density matrices of the instance intact. -/
theorem funk_preserves_constant_inputs_witness :
    (stAfter stW xW).omega = stW.omega ∧ (stAfter stW xW).I = stW.I ∧
    (stAfter stW xW).pairDensityMatrix = stW.pairDensityMatrix ∧
    (stAfter stW xW).siteDensityMatrix = stW.siteDensityMatrix :=
  funk_preserves_constant_inputs stW xW (stAfter stW xW) (yOf stW.funkConfig xW) funkW
